import Mathlib

/-!
Verification of the meme-generator refinement controller.

Shallow embedding of the human-in-the-loop pipeline of this repository:
the retry loop and decision handling of `meme_refiner/pipeline.py`
(`generate_meme`, `_handle_human_decision`, `create_meme`), the
pending-request bridge of `meme_refiner/main.py` (`FeedbackManager`,
`websocket_endpoint`) and the renderer wrapper of `meme_refiner/utils.py`
(`generate_imgflip_meme`).

External effects are abstracted as inputs: what each pipeline round
produced (whether a long-running approval response was captured, the
captured meme spec and url, the decision the feedback handler returns) is
an oracle `Nat → RoundInput`, and the imgflip HTTP call is an oracle
`ApiResult`.  The control flow, state updates and comparisons are
transcribed from the Python source.
-/

namespace MemeRefiner

/-- A JSON-ish value as it can appear in a decision dict delivered over the
websocket.  Python compares `decision.get("approved", "false") == "true"`,
so the distinction between the string `"true"` and the boolean `True`
matters and both are representable. -/
inductive JVal where
  | str (s : String)
  | bool (b : Bool)
deriving DecidableEq

/-- The decision dict a feedback handler resolves with.  `_handle_human_decision`
reads `approved` (any JSON value; absent means the string default `"false"`)
and `feedback` (absent means `""`).  `command_id` is whatever correlation id
the client chose to echo back; the source never reads it. -/
structure DecisionMsg where
  approved : Option JVal
  feedback : Option String
  command_id : Option String
deriving DecidableEq

/-- A meme spec is the JSON object parsed from the MemeCreator output,
modelled as a field map. -/
def MemeSpec := List (String × String)
deriving DecidableEq

/-- The sentinel recorded when no spec was captured:
`current_meme_spec or {"error": "Failed to capture meme spec"}`. -/
def sentinelSpec : MemeSpec := [("error", "Failed to capture meme spec")]

/-- Python `current_meme_spec or sentinel`: `None` and the empty dict are
falsy and are replaced by the sentinel. -/
def pyOrSpec : Option MemeSpec → MemeSpec
  | none => sentinelSpec
  | some s => if s = ([] : List (String × String)) then sentinelSpec else s

/-- One entry of `iteration_context["iterations"]` as appended by
`_handle_human_decision` on rejection. -/
structure IterationRecord where
  iteration : Nat
  meme_spec : MemeSpec
  meme_url : Option String
  human_feedback : String
deriving DecidableEq

/-- The `iteration_context` dict created by `generate_meme`. -/
structure IterationContext where
  initial_prompt : String
  iterations : List IterationRecord
deriving DecidableEq

/-- The reviewer-facing payload built by `_handle_human_decision`:
`{"type": "approval_request", "meme_url": ..., "meme_spec": ...,
"iteration": ..., "command_id": long_running_function_call.id}`. -/
structure ApprovalPayload where
  ptype : String
  meme_url : Option String
  meme_spec : Option MemeSpec
  iteration : Nat
  command_id : String
deriving DecidableEq

/-- Payload construction from `_handle_human_decision`. -/
def approvalPayload (meme_url : Option String) (meme_spec : Option MemeSpec)
    (iteration : Nat) (call_id : String) : ApprovalPayload :=
  { ptype := "approval_request", meme_url := meme_url, meme_spec := meme_spec,
    iteration := iteration, command_id := call_id }

/-- The function `_handle_human_decision` from `meme_refiner/pipeline.py`.
`handler` is `none` when no feedback handler was provided (the
`create_meme` path), otherwise `some d` where `d` is the decision dict the
handler eventually resolves with.  Returns
`(approved, feedback, iteration_context)`; the context is returned
explicitly because Python mutates it in place by appending one record on
rejection. -/
def handle_human_decision (iteration : Nat) (ctx : IterationContext)
    (current_meme_spec : Option MemeSpec) (current_meme_url : Option String)
    (handler : Option DecisionMsg) : Bool × String × IterationContext :=
  match handler with
  | none => (false, "No feedback handler provided", ctx)
  | some d =>
    let approved := d.approved.getD (JVal.str "false")
    let feedback := d.feedback.getD ""
    if approved = JVal.str "true" then
      (true, "", ctx)
    else
      let iteration_data : IterationRecord :=
        { iteration := iteration,
          meme_spec := pyOrSpec current_meme_spec,
          meme_url := current_meme_url,
          human_feedback := feedback }
      (false, feedback, { ctx with iterations := ctx.iterations ++ [iteration_data] })

/-- What one pass of `_run_pipeline_iteration` (plus the subsequent resume)
observably produced, abstracting the ADK event stream:
whether a pending long-running function response was captured, the captured
meme spec and url, the decision the feedback handler would resolve with
this round, and the final text outputs of the run and resume phases. -/
structure RoundInput where
  response : Bool
  meme_spec : Option MemeSpec
  meme_url : Option String
  decision : DecisionMsg
  runOutput : String
  resumeOutput : String

/-- The controller state carried around the `while` loop of `generate_meme`,
together with ghost observability fields: `snapshots` records the value of
`iteration_context` at the start of each executed round, `aborted` and
`abortMessage` record the `break` on a missing approval response. -/
structure LoopState where
  approved : Bool
  iteration : Nat
  ctx : IterationContext
  finalOutput : String
  lastUrl : Option String
  snapshots : List IterationContext
  aborted : Bool
  abortMessage : Option String

/-- The retry loop body of `generate_meme`
(`while not approved and iteration < MAX_ITERATIONS`), as fuel recursion:
the fuel is `MAX_ITERATIONS - iteration`, and the `approved` test guards
each round.  A round increments `iteration`, runs the pipeline pass; if a
pending response was captured it awaits the human decision
(`handle_human_decision`, with `none` when no feedback handler exists),
resumes the pipeline, and loops on rejection; otherwise it prints
`No approval request detected - something went wrong` and breaks. -/
def loopAux (inputs : Nat → RoundInput) (hp : Bool) : Nat → LoopState → LoopState
  | 0, st => st
  | fuel + 1, st =>
    if st.approved then st
    else
      let i := st.iteration + 1
      let inp := inputs i
      let st1 : LoopState := { st with iteration := i, snapshots := st.snapshots ++ [st.ctx] }
      if inp.response then
        let hd := handle_human_decision i st1.ctx inp.meme_spec inp.meme_url
          (if hp then some inp.decision else none)
        let st2 : LoopState := { st1 with
          approved := hd.1, ctx := hd.2.2,
          finalOutput := inp.resumeOutput, lastUrl := inp.meme_url }
        loopAux inputs hp fuel st2
      else
        { st1 with
          finalOutput := inp.runOutput, lastUrl := inp.meme_url,
          aborted := true,
          abortMessage := some "No approval request detected - something went wrong" }

/-- The constant `MAX_ITERATIONS` from `meme_refiner/config.py`. -/
def MAX_ITERATIONS : Nat := 5

/-- Initial controller state of `generate_meme`:
`iteration_context = {"initial_prompt": user_prompt, "iterations": []}`,
`approved = False`, `final_output = ""`, `iteration = 0`. -/
def initState (prompt : String) : LoopState :=
  { approved := false, iteration := 0,
    ctx := { initial_prompt := prompt, iterations := [] },
    finalOutput := "", lastUrl := none, snapshots := [],
    aborted := false, abortMessage := none }

/-- The controller `generate_meme(user_prompt, feedback_handler)`: the retry loop run from
the initial state.  `hp` is whether a feedback handler was provided. -/
def generate_meme (prompt : String) (inputs : Nat → RoundInput) (hp : Bool) : LoopState :=
  loopAux inputs hp MAX_ITERATIONS (initState prompt)

/-- The dict `generate_meme` returns:
`{"result": final_output, "approved": approved, "iterations": iteration,
"meme_url": current_meme_url}`. -/
structure RunResult where
  result : String
  approved : Bool
  iterations : Nat
  meme_url : Option String
deriving DecidableEq

/-- Projection of the loop state onto the returned dict. -/
def runResultOf (st : LoopState) : RunResult :=
  { result := st.finalOutput, approved := st.approved,
    iterations := st.iteration, meme_url := st.lastUrl }

/-- The wrapper `create_meme(user_prompt)`: synchronous wrapper that calls
`generate_meme` without a feedback handler. -/
def create_meme (prompt : String) (inputs : Nat → RoundInput) : RunResult :=
  runResultOf (generate_meme prompt inputs false)

/-! ### The imgflip renderer wrapper (`meme_refiner/utils.py`) -/

/-- Outcome of the network interaction inside `generate_imgflip_meme`'s
`try` block: `raised msg` when `requests.post`, `.json()` or the
`data['data']['url']` access raised (with `str(e) = msg`); `okSuccess url`
when the response JSON had truthy `success` and carried `data.url`;
`okFailure em` when `success` was falsy, `em` the optional
`error_message`. -/
inductive ApiResult where
  | raised (msg : String)
  | okSuccess (url : String)
  | okFailure (errorMessage : Option String)

/-- The dict `generate_imgflip_meme` returns. -/
structure ImgflipResult where
  success : Bool
  url : Option String
  error : Option String
deriving DecidableEq

/-- The renderer `generate_imgflip_meme(template_id, top_text, bottom_text)` from
`meme_refiner/utils.py`.  `username`/`password` are the values of the
`IMGFLIP_USERNAME`/`IMGFLIP_PASSWORD` environment variables (`""` when
unset), `api` the oracle for the network call.  The second component of
the result records whether the network was contacted at all. -/
def generate_imgflip_meme (template_id : Int) (top_text bottom_text : String)
    (username password : String) (api : ApiResult) : ImgflipResult × Bool :=
  if username = "" ∨ password = "" then
    ({ success := false, url := none, error := some "IMGFLIP credentials not set" }, false)
  else
    match api with
    | .raised msg => ({ success := false, url := none, error := some msg }, true)
    | .okSuccess u => ({ success := true, url := some u, error := none }, true)
    | .okFailure em =>
      ({ success := false, url := none, error := some (em.getD "Unknown error") }, true)

/-! ### The decision bridge (`meme_refiner/main.py`, `FeedbackManager`) -/

/-- State of the `FeedbackManager` together with the identity of every
future it ever created: `pending` models the dict
`pending_feedback : client_id -> Future` (at most one entry per key, the
entry holding the future's id), and `futures` maps each created future id
to its result (`none` while unresolved). `nextId` allocates fresh future
identities. -/
structure FMState where
  nextId : Nat
  pending : List (String × Nat)
  futures : List (Nat × Option DecisionMsg)
deriving DecidableEq

/-- The manager starts with no pending requests. -/
def initFM : FMState := { nextId := 0, pending := [], futures := [] }

/-- Dictionary lookup on an association list (first entry wins, as in a
Python dict that holds at most one entry per key). -/
def lookupKey {α β : Type} [DecidableEq α] : List (α × β) → α → Option β
  | [], _ => none
  | p :: t, k => if p.1 = k then some p.2 else lookupKey t k

/-- Dictionary deletion: drop every entry with the given key. -/
def delKey {α β : Type} [DecidableEq α] : List (α × β) → α → List (α × β)
  | [], _ => []
  | p :: t, k => if p.1 = k then delKey t k else p :: delKey t k

/-- Dict-style update: exactly one entry per key, the new value replacing
any previous one. -/
def setKey (l : List (String × Nat)) (k : String) (v : Nat) : List (String × Nat) :=
  (k, v) :: delKey l k

/-- The update `future.set_result(data)` guarded by `if not future.done()`, applied to
the future with identity `fid`. -/
def setResult (l : List (Nat × Option DecisionMsg)) (fid : Nat) (d : DecisionMsg) :
    List (Nat × Option DecisionMsg) :=
  l.map (fun p => (p.1, if p.1 = fid ∧ p.2 = none then some d else p.2))

/-- The operation `FeedbackManager.create_request(client_id)`: create a fresh future and
assign it into `pending_feedback[client_id]`, returning the future. -/
def createRequest (s : FMState) (cid : String) : FMState × Nat :=
  let fid := s.nextId
  ({ nextId := fid + 1,
     futures := (fid, none) :: s.futures,
     pending := setKey s.pending cid fid }, fid)

/-- The operation `FeedbackManager.resolve_request(client_id, data)`: if the key has a
pending future, set its result (unless already done) and delete the key;
otherwise do nothing. -/
def resolveRequest (s : FMState) (cid : String) (d : DecisionMsg) : FMState :=
  match lookupKey s.pending cid with
  | none => s
  | some fid =>
    { s with
      futures := setResult s.futures fid d,
      pending := delKey s.pending cid }

/-- A message arriving on the websocket of client `cid`:
`mtype` is the dict's `"type"` field, `decision` the decision-relevant
fields of the same dict. -/
structure WsMessage where
  mtype : String
  decision : DecisionMsg

/-- The dispatch in `websocket_endpoint`: a message of type `"decision"`
resolves the client's pending request; anything else is echoed back and
leaves the manager untouched. -/
def onMessage (s : FMState) (cid : String) (m : WsMessage) : FMState :=
  if m.mtype = "decision" then resolveRequest s cid m.decision else s

/-! ### Specification-side observers (used only in theorem statements) -/

/-- Whether `_handle_human_decision` would treat `d` as an approval:
the Python comparison `decision.get("approved", "false") == "true"`. -/
def decApproves (d : DecisionMsg) : Bool :=
  if d.approved.getD (JVal.str "false") = JVal.str "true" then true else false

/-- Whether a round with input `inp` ends approved: it needs a feedback
handler and a decision equal to the string `"true"`. -/
def roundApproves (hp : Bool) (inp : RoundInput) : Bool :=
  hp && decApproves inp.decision

/-- The first round index in `(start, start+fuel]` whose decision approves,
if any. -/
def firstApproveFrom (inputs : Nat → RoundInput) (hp : Bool) : Nat → Nat → Option Nat
  | _, 0 => none
  | start, fuel + 1 =>
    if roundApproves hp (inputs (start + 1)) then some (start + 1)
    else firstApproveFrom inputs hp (start + 1) fuel

/-- The record a rejected round `i` appends (feedback-handler path). -/
def recOf (inputs : Nat → RoundInput) (i : Nat) : IterationRecord :=
  { iteration := i,
    meme_spec := pyOrSpec (inputs i).meme_spec,
    meme_url := (inputs i).meme_url,
    human_feedback := (inputs i).decision.feedback.getD "" }

/-- The history after rounds `1..j` were all rejected. -/
def histList (inputs : Nat → RoundInput) (j : Nat) : List IterationRecord :=
  (List.range j).map (fun k => recOf inputs (k + 1))

/-- The iteration context holding exactly that history. -/
def mkCtx (prompt : String) (l : List IterationRecord) : IterationContext :=
  { initial_prompt := prompt, iterations := l }

/-! ### Concrete inputs used by witnesses and counterexamples -/

/-- A rejecting decision: `approved` is the string `"false"`. -/
def rejD : DecisionMsg := { approved := some (JVal.str "false"), feedback := some "fb", command_id := none }

/-- An approving decision: `approved` is the string `"true"`. -/
def appD : DecisionMsg := { approved := some (JVal.str "true"), feedback := some "", command_id := none }

/-- A decision whose `approved` field is the boolean `True`. -/
def boolD : DecisionMsg := { approved := some (JVal.bool true), feedback := some "", command_id := none }

/-- A round that reaches the suspension and is rejected. -/
def rejRound : RoundInput :=
  { response := true, meme_spec := none, meme_url := none,
    decision := rejD, runOutput := "o", resumeOutput := "o" }

/-- A round that reaches the suspension and is approved. -/
def appRound : RoundInput :=
  { response := true, meme_spec := none, meme_url := none,
    decision := appD, runOutput := "o", resumeOutput := "o" }

/-- A round in which no pending approval response is captured. -/
def noRespRound : RoundInput :=
  { response := false, meme_spec := none, meme_url := none,
    decision := rejD, runOutput := "o", resumeOutput := "o" }

/-- A round whose decision carries the boolean `True`. -/
def boolRound : RoundInput :=
  { response := true, meme_spec := none, meme_url := none,
    decision := boolD, runOutput := "o", resumeOutput := "o" }

/-- Every round rejected. -/
def inpRejAll : Nat → RoundInput := fun _ => rejRound

/-- Rounds rejected except round 2, which approves. -/
def inpApproveAt2 : Nat → RoundInput :=
  fun i =>
    { response := true, meme_spec := none, meme_url := none,
      decision := if i = 2 then appD else rejD, runOutput := "o", resumeOutput := "o" }

/-- Rounds 1-4 rejected, round 5 captures no approval response. -/
def inpAbortAt5 : Nat → RoundInput :=
  fun i => if i = 5 then noRespRound else rejRound

/-- No round captures an approval response. -/
def inpNoResp : Nat → RoundInput := fun _ => noRespRound

/-- Every round decided with the boolean `True`. -/
def inpBoolTrue : Nat → RoundInput := fun _ => boolRound

/-- A manager with two unresolved pending slots for clients `a` and `b`. -/
def fmTwoPending : FMState :=
  { nextId := 2, pending := [("a", 0), ("b", 1)], futures := [(0, none), (1, none)] }

/-- A manager with one unresolved pending slot for client `c`. -/
def fmOnePending : FMState :=
  { nextId := 1, pending := [("c", 0)], futures := [(0, none)] }

/-- A decision dict echoing back correlation id `y`. -/
def decisionWithIdY : DecisionMsg :=
  { approved := some (JVal.str "true"), feedback := some "", command_id := some "y" }

/-! ### Association-list lemmas for the bridge state -/

theorem lookupKey_delKey_ne {α β : Type} [DecidableEq α] (l : List (α × β)) (k k' : α)
    (hne : k ≠ k') :
    lookupKey (delKey l k') k = lookupKey l k := by
  have hkk : ¬ k' = k := fun hh => hne hh.symm
  induction l with
  | nil => rfl
  | cons a t ih =>
    by_cases h1 : a.1 = k'
    · simp [delKey, h1, lookupKey, hkk, ih]
    · by_cases h3 : a.1 = k
      · simp [delKey, h1, lookupKey, h3, hne, ih]
      · simp [delKey, h1, lookupKey, h3, ih]

theorem lookupKey_delKey_self {α β : Type} [DecidableEq α] (l : List (α × β)) (k : α) :
    lookupKey (delKey l k) k = none := by
  induction l with
  | nil => rfl
  | cons a t ih =>
    by_cases h1 : a.1 = k
    · simp [delKey, h1, ih]
    · simp [delKey, h1, lookupKey, ih]

theorem lookupKey_setKey_self (l : List (String × Nat)) (k : String) (v : Nat) :
    lookupKey (setKey l k v) k = some v := by
  simp [setKey, lookupKey]

theorem lookupKey_setKey_ne (l : List (String × Nat)) (k k' : String) (v : Nat)
    (hne : k' ≠ k) :
    lookupKey (setKey l k v) k' = lookupKey l k' := by
  have h2 : ¬ k = k' := fun hh => hne hh.symm
  simp [setKey, lookupKey, h2, lookupKey_delKey_ne l k' k hne]

theorem lookupKey_setResult_self (l : List (Nat × Option DecisionMsg)) (fid : Nat)
    (d : DecisionMsg) (h : lookupKey l fid = some none) :
    lookupKey (setResult l fid d) fid = some (some d) := by
  induction l with
  | nil => simp [lookupKey] at h
  | cons a t ih =>
    by_cases h1 : a.1 = fid
    · have hv : a.2 = none := by
        have := h
        simpa [lookupKey, h1] using this
      simp [setResult, lookupKey, h1, hv]
    · have h' : lookupKey t fid = some none := by simpa [lookupKey, h1] using h
      simpa [setResult, lookupKey, h1] using ih h'

theorem lookupKey_setResult_ne (l : List (Nat × Option DecisionMsg)) (fid fid' : Nat)
    (d : DecisionMsg) (h : fid' ≠ fid) :
    lookupKey (setResult l fid d) fid' = lookupKey l fid' := by
  induction l with
  | nil => rfl
  | cons a t ih =>
    by_cases h3 : a.1 = fid'
    · have h1 : ¬ a.1 = fid := fun hh => h (h3 ▸ hh)
      simp [setResult, lookupKey, h3, h1, h]
    · simp only [setResult, lookupKey, List.map_cons, h3, if_neg h3]
      simpa [setResult] using ih

/-! ### C9: the imgflip wrapper -/

/-- Claim C9: with either imgflip credential unset or empty,
`generate_imgflip_meme` returns
`success = False, url = None, error = "IMGFLIP credentials not set"`
without contacting the network; and any exception arising from the
request is caught and converted into a `success = False` dict carrying
the exception text, so the function never raises. -/
theorem imgflip_missing_credentials (template_id : Int) (top_text bottom_text : String)
    (username password : String) :
    ((username = "" ∨ password = "") → ∀ api : ApiResult,
      generate_imgflip_meme template_id top_text bottom_text username password api
        = ({ success := false, url := none, error := some "IMGFLIP credentials not set" }, false)) ∧
    (∀ msg : String, username ≠ "" → password ≠ "" →
      generate_imgflip_meme template_id top_text bottom_text username password (.raised msg)
        = ({ success := false, url := none, error := some msg }, true)) := by
  constructor
  · intro h api
    simp [generate_imgflip_meme, h]
  · intro msg hu hp
    simp [generate_imgflip_meme, hu, hp]

/-- Witness for `imgflip_missing_credentials` at concrete inputs. -/
theorem imgflip_missing_credentials_witness :
    generate_imgflip_meme 1 "t" "b" "" "pw" (.okSuccess "u")
      = ({ success := false, url := none, error := some "IMGFLIP credentials not set" }, false) ∧
    generate_imgflip_meme 1 "t" "b" "user" "pw" (.raised "boom")
      = ({ success := false, url := none, error := some "boom" }, true) :=
  ⟨(imgflip_missing_credentials 1 "t" "b" "" "pw").1 (Or.inl rfl) _,
   (imgflip_missing_credentials 1 "t" "b" "user" "pw").2 "boom" (by decide) (by decide)⟩

/-! ### C8: resolving a decision is idempotent -/

/-- Claim C8: a second `resolve_request` for an already-resolved key is a
no-op (the state, and hence the result delivered to the awaiting caller,
is unchanged), and resolving one key touches neither the pending slots nor
the futures of any other key. -/
theorem resolve_request_idempotent (s : FMState) (cid : String) (d d2 : DecisionMsg) :
    resolveRequest (resolveRequest s cid d) cid d2 = resolveRequest s cid d ∧
    (∀ c', c' ≠ cid →
      lookupKey (resolveRequest s cid d).pending c' = lookupKey s.pending c') ∧
    (∀ c' f', c' ≠ cid → lookupKey s.pending c' = some f' →
      lookupKey s.pending cid ≠ some f' →
      lookupKey (resolveRequest s cid d).futures f' = lookupKey s.futures f') := by
  refine ⟨?_, ?_, ?_⟩
  · cases h : lookupKey s.pending cid with
    | none =>
      have h1 : resolveRequest s cid d = s := by simp [resolveRequest, h]
      rw [h1]
      simp [resolveRequest, h, h1]
    | some fid =>
      have h2 : lookupKey (resolveRequest s cid d).pending cid = none := by
        simp [resolveRequest, h, lookupKey_delKey_self]
      set s' := resolveRequest s cid d with hs'
      simp [resolveRequest, h2]
  · intro c' hc'
    cases h : lookupKey s.pending cid with
    | none => simp [resolveRequest, h]
    | some fid => simp [resolveRequest, h, lookupKey_delKey_ne _ c' cid hc']
  · intro c' f' hc' hl hne
    cases h : lookupKey s.pending cid with
    | none => simp [resolveRequest, h]
    | some fid =>
      have hfe : f' ≠ fid := fun he => hne (by rw [h, he])
      simp [resolveRequest, h, lookupKey_setResult_ne _ fid f' d hfe]

/-- Witness for `resolve_request_idempotent`: client `a`'s slot in a
two-client manager, with client `b` untouched. -/
theorem resolve_request_idempotent_witness :
    resolveRequest (resolveRequest fmTwoPending "a" rejD) "a" appD
      = resolveRequest fmTwoPending "a" rejD ∧
    lookupKey (resolveRequest fmTwoPending "a" rejD).pending "b"
      = lookupKey fmTwoPending.pending "b" ∧
    lookupKey (resolveRequest fmTwoPending "a" rejD).futures 1
      = lookupKey fmTwoPending.futures 1 := by
  have h := resolve_request_idempotent fmTwoPending "a" rejD appD
  exact ⟨h.1, h.2.1 "b" (by decide), h.2.2 "b" 1 (by decide) (by decide) (by decide)⟩

/-! ### C3: a second pending request silently replaces the first -/

/-- Counterexample to claim C3: calling `create_request` twice for the same
key while the first request is unresolved is neither rejected nor queued —
the pending slot now holds the second future, the first future is left
unresolved and orphaned, and no error is signalled. -/
theorem second_create_silently_replaces :
    lookupKey ((createRequest (createRequest initFM "c").1 "c").1).pending "c"
      = some (createRequest (createRequest initFM "c").1 "c").2 ∧
    (createRequest (createRequest initFM "c").1 "c").2 = 1 ∧
    (createRequest initFM "c").2 = 0 ∧
    (1 : Nat) ≠ 0 ∧
    lookupKey ((createRequest (createRequest initFM "c").1 "c").1).futures 0 = some none ∧
    ((createRequest (createRequest initFM "c").1 "c").1).pending = [("c", 1)] := by
  decide

/-- Claim C3 amended: `create_request` holds at most one pending slot per
key only by silent replacement — a second call for the same key while the
first request is unresolved replaces the slot with a fresh future, leaving
the first future unresolved; slots of other keys are unaffected. -/
theorem create_request_replaces (s : FMState) (cid : String) :
    lookupKey ((createRequest (createRequest s cid).1 cid).1).pending cid
      = some ((createRequest (createRequest s cid).1 cid).2) ∧
    ((createRequest (createRequest s cid).1 cid).2) ≠ ((createRequest s cid).2) ∧
    lookupKey ((createRequest (createRequest s cid).1 cid).1).futures ((createRequest s cid).2)
      = some none ∧
    (∀ c', c' ≠ cid →
      lookupKey ((createRequest (createRequest s cid).1 cid).1).pending c'
        = lookupKey s.pending c') := by
  refine ⟨?_, ?_, ?_, ?_⟩
  · simp [createRequest, lookupKey_setKey_self]
  · simp [createRequest]
  · have h4 : ¬ (s.nextId + 1 = s.nextId) := by omega
    simp [createRequest, lookupKey, h4]
  · intro c' hc'
    simp [createRequest, lookupKey_setKey_ne _ _ _ _ hc', lookupKey_setKey_ne s.pending _ _ _ hc']

/-- Witness for `create_request_replaces` on the empty manager. -/
theorem create_request_replaces_witness :
    lookupKey ((createRequest (createRequest initFM "c").1 "c").1).pending "c"
      = some ((createRequest (createRequest initFM "c").1 "c").2) ∧
    lookupKey ((createRequest (createRequest initFM "c").1 "c").1).pending "d"
      = lookupKey initFM.pending "d" := by
  have h := create_request_replaces initFM "c"
  exact ⟨h.1, h.2.2.2 "d" (by decide)⟩

/-! ### C4: decisions are correlated by client key, not by command id -/

/-- Counterexample to claim C4: a suspension issued with correlation id
`x` (the `command_id` placed in the approval payload) is completed by a
decision that carries the different correlation id `y`, because
`websocket_endpoint` resolves purely by client key and never inspects the
decision's `command_id`. -/
theorem mismatched_command_id_completes :
    (approvalPayload (some "u") none 1 "x").command_id = "x" ∧
    decisionWithIdY.command_id = some "y" ∧
    ("y" : String) ≠ "x" ∧
    lookupKey fmOnePending.pending "c" = some 0 ∧
    lookupKey fmOnePending.futures 0 = some none ∧
    lookupKey (onMessage fmOnePending "c"
      { mtype := "decision", decision := decisionWithIdY }).futures 0
      = some (some decisionWithIdY) ∧
    lookupKey (onMessage fmOnePending "c"
      { mtype := "decision", decision := decisionWithIdY }).pending "c"
      = none := by
  decide

/-- Claim C4 amended: correlation is by client key only.  A message for a
different client key leaves the suspension pending and untouched, while
any decision message on the matching client key completes the suspension
regardless of the correlation id it carries. -/
theorem correlation_by_client_key (s : FMState) (cid cid' : String) (fid : Nat)
    (m : WsMessage)
    (hpend : lookupKey s.pending cid = some fid)
    (hfut : lookupKey s.futures fid = some none) :
    (cid' ≠ cid → (∀ f', lookupKey s.pending cid' = some f' → f' ≠ fid) →
      lookupKey (onMessage s cid' m).pending cid = some fid ∧
      lookupKey (onMessage s cid' m).futures fid = some none) ∧
    (m.mtype = "decision" →
      lookupKey (onMessage s cid m).futures fid = some (some m.decision)) := by
  constructor
  · intro hne hdist
    by_cases hm : m.mtype = "decision"
    · cases h : lookupKey s.pending cid' with
      | none => simp [onMessage, hm, resolveRequest, h, hpend, hfut]
      | some f' =>
        have hf' : f' ≠ fid := hdist f' h
        constructor
        · simp [onMessage, hm, resolveRequest, h,
            lookupKey_delKey_ne _ cid cid' (fun he => hne he.symm), hpend]
        · simp [onMessage, hm, resolveRequest, h,
            lookupKey_setResult_ne _ f' fid m.decision (fun he => hf' he.symm), hfut]
    · simp [onMessage, hm, hpend, hfut]
  · intro hm
    simp [onMessage, hm, resolveRequest, hpend,
      lookupKey_setResult_self _ fid m.decision hfut]

/-- Witness for `correlation_by_client_key`: in a two-client manager a
decision on client `b` leaves client `a`'s suspension pending, and a
decision on client `a` completes it whatever id it echoes. -/
theorem correlation_by_client_key_witness :
    lookupKey (onMessage fmTwoPending "b"
      { mtype := "decision", decision := decisionWithIdY }).pending "a" = some 0 ∧
    lookupKey (onMessage fmTwoPending "b"
      { mtype := "decision", decision := decisionWithIdY }).futures 0 = some none ∧
    lookupKey (onMessage fmTwoPending "a"
      { mtype := "decision", decision := decisionWithIdY }).futures 0
      = some (some decisionWithIdY) := by
  have h := correlation_by_client_key fmTwoPending "a" "b" 0
    { mtype := "decision", decision := decisionWithIdY } (by decide) (by decide)
  have ha := h.1 (by decide) (fun f' hf' => by
    have h1 : (1 : Nat) = f' := by simpa [fmTwoPending, lookupKey] using hf'
    omega)
  exact ⟨ha.1, ha.2, h.2 (by decide)⟩

/-! ### Lemmas about the decision handler and the retry loop -/

theorem handle_none (i : Nat) (ctx : IterationContext) (s : Option MemeSpec)
    (u : Option String) :
    handle_human_decision i ctx s u none = (false, "No feedback handler provided", ctx) := rfl

theorem handle_if_true (i : Nat) (ctx : IterationContext) (s : Option MemeSpec)
    (u : Option String) (d : DecisionMsg) :
    handle_human_decision i ctx s u (if true then some d else none)
      = handle_human_decision i ctx s u (some d) := rfl

theorem handle_fst (i : Nat) (ctx : IterationContext) (s : Option MemeSpec)
    (u : Option String) (hp : Bool) (d : DecisionMsg) :
    (handle_human_decision i ctx s u (if hp then some d else none)).1
      = (hp && decApproves d) := by
  cases hp
  · rfl
  · by_cases hc : d.approved.getD (JVal.str "false") = JVal.str "true"
    · simp [handle_human_decision, decApproves, hc]
    · simp [handle_human_decision, decApproves, hc]

theorem handle_some_approve (i : Nat) (ctx : IterationContext) (s : Option MemeSpec)
    (u : Option String) (d : DecisionMsg) (h : decApproves d = true) :
    handle_human_decision i ctx s u (some d) = (true, "", ctx) := by
  have hc : d.approved.getD (JVal.str "false") = JVal.str "true" := by
    by_contra hcc
    simp [decApproves, hcc] at h
  simp [handle_human_decision, hc]

theorem handle_some_reject (i : Nat) (ctx : IterationContext) (s : Option MemeSpec)
    (u : Option String) (d : DecisionMsg) (h : decApproves d = false) :
    handle_human_decision i ctx s u (some d)
      = (false, d.feedback.getD "",
         { ctx with iterations := ctx.iterations ++
            [{ iteration := i, meme_spec := pyOrSpec s, meme_url := u,
               human_feedback := d.feedback.getD "" }] }) := by
  have hc : ¬ d.approved.getD (JVal.str "false") = JVal.str "true" := by
    intro hcc
    simp [decApproves, hcc] at h
  simp [handle_human_decision, hc]

theorem loopAux_of_approved (inputs : Nat → RoundInput) (hp : Bool) :
    ∀ (fuel : Nat) (st : LoopState), st.approved = true → loopAux inputs hp fuel st = st
  | 0, _, _ => rfl
  | _ + 1, _, h => by simp [loopAux, h]

theorem loopAux_step_facts (inputs : Nat → RoundInput) (hp : Bool) (fuel : Nat)
    (st : LoopState) (hst : st.approved = false)
    (hr : (inputs (st.iteration + 1)).response = true) :
    ∃ st2 : LoopState,
      loopAux inputs hp (fuel + 1) st = loopAux inputs hp fuel st2 ∧
      st2.approved = roundApproves hp (inputs (st.iteration + 1)) ∧
      st2.iteration = st.iteration + 1 ∧
      st2.snapshots = st.snapshots ++ [st.ctx] ∧
      st2.ctx = (handle_human_decision (st.iteration + 1) st.ctx
          (inputs (st.iteration + 1)).meme_spec (inputs (st.iteration + 1)).meme_url
          (if hp then some (inputs (st.iteration + 1)).decision else none)).2.2 ∧
      st2.aborted = st.aborted := by
  refine ⟨{
    approved := (handle_human_decision (st.iteration + 1) st.ctx
      (inputs (st.iteration + 1)).meme_spec (inputs (st.iteration + 1)).meme_url
      (if hp then some (inputs (st.iteration + 1)).decision else none)).1,
    iteration := st.iteration + 1,
    ctx := (handle_human_decision (st.iteration + 1) st.ctx
      (inputs (st.iteration + 1)).meme_spec (inputs (st.iteration + 1)).meme_url
      (if hp then some (inputs (st.iteration + 1)).decision else none)).2.2,
    finalOutput := (inputs (st.iteration + 1)).resumeOutput,
    lastUrl := (inputs (st.iteration + 1)).meme_url,
    snapshots := st.snapshots ++ [st.ctx],
    aborted := st.aborted,
    abortMessage := st.abortMessage }, ?_, ?_, rfl, rfl, rfl, rfl⟩
  · simp [loopAux, hst, hr]
  · exact handle_fst _ _ _ _ hp _

theorem loopAux_step_abort (inputs : Nat → RoundInput) (hp : Bool) (fuel : Nat)
    (st : LoopState) (hst : st.approved = false)
    (hr : (inputs (st.iteration + 1)).response = false) :
    loopAux inputs hp (fuel + 1) st
      = { st with
          iteration := st.iteration + 1,
          snapshots := st.snapshots ++ [st.ctx],
          finalOutput := (inputs (st.iteration + 1)).runOutput,
          lastUrl := (inputs (st.iteration + 1)).meme_url,
          aborted := true,
          abortMessage := some "No approval request detected - something went wrong" } := by
  simp [loopAux, hst, hr]

theorem loopAux_char (inputs : Nat → RoundInput) (hp : Bool)
    (hresp : ∀ i, (inputs i).response = true) :
    ∀ (fuel : Nat) (st : LoopState), st.approved = false →
      (loopAux inputs hp fuel st).iteration
          = (firstApproveFrom inputs hp st.iteration fuel).getD (st.iteration + fuel) ∧
      (loopAux inputs hp fuel st).approved
          = (firstApproveFrom inputs hp st.iteration fuel).isSome ∧
      (loopAux inputs hp fuel st).snapshots.length + st.iteration
          = st.snapshots.length + (loopAux inputs hp fuel st).iteration := by
  intro fuel
  induction fuel with
  | zero =>
    intro st hst
    simp [loopAux, firstApproveFrom, hst]
  | succ fuel ih =>
    intro st hst
    obtain ⟨st2, heq, ha, hi, hsn, _, _⟩ :=
      loopAux_step_facts inputs hp fuel st hst (hresp _)
    rw [heq]
    cases hA : roundApproves hp (inputs (st.iteration + 1)) with
    | true =>
      have h2 : st2.approved = true := by rw [ha, hA]
      rw [loopAux_of_approved inputs hp fuel st2 h2]
      have hf : firstApproveFrom inputs hp st.iteration (fuel + 1)
          = some (st.iteration + 1) := by
        simp [firstApproveFrom, hA]
      rw [hf]
      refine ⟨by rw [hi]; rfl, by rw [h2]; rfl, ?_⟩
      rw [hsn, hi]
      simp only [List.length_append, List.length_singleton]
      omega
    | false =>
      have h2 : st2.approved = false := by rw [ha, hA]
      obtain ⟨ih1, ih2, ih3⟩ := ih st2 h2
      have hf : firstApproveFrom inputs hp st.iteration (fuel + 1)
          = firstApproveFrom inputs hp (st.iteration + 1) fuel := by
        simp [firstApproveFrom, hA]
      rw [hf]
      refine ⟨?_, ?_, ?_⟩
      · rw [ih1, hi]
        have harith : st.iteration + 1 + fuel = st.iteration + (fuel + 1) := by omega
        rw [harith]
      · rw [ih2, hi]
      · rw [hi] at ih2 ih3
        rw [hsn] at ih3
        simp only [List.length_append, List.length_singleton] at ih3
        omega

theorem firstApproveFrom_bounds (inputs : Nat → RoundInput) (hp : Bool) :
    ∀ (fuel start k : Nat), firstApproveFrom inputs hp start fuel = some k →
      start + 1 ≤ k ∧ k ≤ start + fuel := by
  intro fuel
  induction fuel with
  | zero =>
    intro start k h
    simp [firstApproveFrom] at h
  | succ fuel ih =>
    intro start k h
    cases hA : roundApproves hp (inputs (start + 1)) with
    | true =>
      rw [firstApproveFrom, if_pos hA] at h
      have : start + 1 = k := by simpa using h
      omega
    | false =>
      rw [firstApproveFrom, if_neg (by simp [hA])] at h
      have := ih (start + 1) k h
      omega

/-! ### C1: the retry loop is bounded and exits on approval -/

/-- Claim C1: under any sequence of round decisions (every round delivering
a decision), the retry loop runs at most `MAX_ITERATIONS = 5` rounds; it
stops at the first approving decision, otherwise runs exactly
`MAX_ITERATIONS` rounds, and the returned `iterations` field equals the
number of rounds executed. -/
theorem bounded_termination (prompt : String) (inputs : Nat → RoundInput) (hp : Bool)
    (hresp : ∀ i, (inputs i).response = true) :
    MAX_ITERATIONS = 5 ∧
    (generate_meme prompt inputs hp).iteration ≤ MAX_ITERATIONS ∧
    (generate_meme prompt inputs hp).iteration
      = (firstApproveFrom inputs hp 0 MAX_ITERATIONS).getD MAX_ITERATIONS ∧
    (generate_meme prompt inputs hp).approved
      = (firstApproveFrom inputs hp 0 MAX_ITERATIONS).isSome ∧
    (runResultOf (generate_meme prompt inputs hp)).iterations
      = (generate_meme prompt inputs hp).snapshots.length := by
  obtain ⟨h1, h2, h3⟩ := loopAux_char inputs hp hresp MAX_ITERATIONS (initState prompt) rfl
  have hiter : (generate_meme prompt inputs hp).iteration
      = (firstApproveFrom inputs hp 0 MAX_ITERATIONS).getD MAX_ITERATIONS := by
    simpa [generate_meme, initState] using h1
  refine ⟨rfl, ?_, hiter, ?_, ?_⟩
  · rw [hiter]
    cases hf : firstApproveFrom inputs hp 0 MAX_ITERATIONS with
    | none => simp
    | some k =>
      have := firstApproveFrom_bounds inputs hp MAX_ITERATIONS 0 k hf
      simp
      omega
  · simpa [generate_meme, initState] using h2
  · have h3' := h3
    simp only [generate_meme, initState] at h3' ⊢
    simp at h3'
    simpa [runResultOf] using h3'.symm

/-- Witness for `bounded_termination`: with rejections in round 1 and an
approval in round 2, the run stops after exactly 2 rounds, approved. -/
theorem bounded_termination_witness :
    (generate_meme "p" inpApproveAt2 true).iteration = 2 ∧
    (generate_meme "p" inpApproveAt2 true).approved = true := by
  have h := bounded_termination "p" inpApproveAt2 true (fun _ => rfl)
  exact ⟨h.2.2.1.trans (by decide), h.2.2.2.1.trans (by decide)⟩

/-! ### C10: runs without a feedback handler -/

theorem loopAux_noHandler (inputs : Nat → RoundInput)
    (hresp : ∀ i, (inputs i).response = true) :
    ∀ (fuel : Nat) (st : LoopState), st.approved = false →
      (loopAux inputs false fuel st).approved = false ∧
      (loopAux inputs false fuel st).iteration = st.iteration + fuel ∧
      (loopAux inputs false fuel st).ctx = st.ctx := by
  intro fuel
  induction fuel with
  | zero =>
    intro st hst
    simp [loopAux, hst]
  | succ fuel ih =>
    intro st hst
    obtain ⟨st2, heq, ha, hi, _, hctx, _⟩ :=
      loopAux_step_facts inputs false fuel st hst (hresp _)
    rw [heq]
    have h2 : st2.approved = false := by rw [ha]; rfl
    obtain ⟨ih1, ih2, ih3⟩ := ih st2 h2
    refine ⟨ih1, ?_, ?_⟩
    · rw [ih2, hi]; omega
    · rw [ih3, hctx]; rfl

/-- Claim C10: a run without a feedback handler (the `create_meme` path)
resolves every round that reaches the approval suspension as a rejection
with the fixed feedback `No feedback handler provided`, appends nothing to
the iteration history, and loops until `MAX_ITERATIONS` with an empty
history. -/
theorem no_handler_silent_loop (prompt : String) (inputs : Nat → RoundInput)
    (hresp : ∀ i, (inputs i).response = true) :
    (generate_meme prompt inputs false).approved = false ∧
    (generate_meme prompt inputs false).iteration = MAX_ITERATIONS ∧
    (generate_meme prompt inputs false).ctx.iterations = [] ∧
    (∀ (i : Nat) (ctx : IterationContext) (s : Option MemeSpec) (u : Option String),
      handle_human_decision i ctx s u none
        = (false, "No feedback handler provided", ctx)) ∧
    create_meme prompt inputs = runResultOf (generate_meme prompt inputs false) := by
  obtain ⟨h1, h2, h3⟩ := loopAux_noHandler inputs hresp MAX_ITERATIONS (initState prompt) rfl
  refine ⟨h1, ?_, ?_, fun i ctx s u => rfl, rfl⟩
  · simpa [generate_meme, initState] using h2
  · rw [show (generate_meme prompt inputs false).ctx = (initState prompt).ctx from h3]
    rfl

/-- Witness for `no_handler_silent_loop`: every round suspends and is
auto-rejected; the run exhausts all five rounds with empty history. -/
theorem no_handler_silent_loop_witness :
    (generate_meme "p" inpRejAll false).approved = false ∧
    (generate_meme "p" inpRejAll false).iteration = MAX_ITERATIONS ∧
    (generate_meme "p" inpRejAll false).ctx.iterations = [] := by
  have h := no_handler_silent_loop "p" inpRejAll (fun _ => rfl)
  exact ⟨h.1, h.2.1, h.2.2.1⟩

/-! ### C2: history growth -/

theorem histList_succ (inputs : Nat → RoundInput) (j : Nat) :
    histList inputs (j + 1) = histList inputs j ++ [recOf inputs (j + 1)] := by
  simp [histList, List.range_succ]

theorem loopAux_snapshots (prompt : String) (inputs : Nat → RoundInput) :
    ∀ (fuel : Nat) (st : LoopState), st.approved = false →
      st.snapshots = (List.range st.iteration).map (fun j => mkCtx prompt (histList inputs j)) →
      st.ctx = mkCtx prompt (histList inputs st.iteration) →
      (loopAux inputs true fuel st).snapshots
        = (List.range ((loopAux inputs true fuel st).snapshots.length)).map
            (fun j => mkCtx prompt (histList inputs j)) := by
  intro fuel
  induction fuel with
  | zero =>
    intro st hst hsnap hctx
    rw [show loopAux inputs true 0 st = st from rfl, hsnap]
    simp
  | succ fuel ih =>
    intro st hst hsnap hctx
    have hsn1 : st.snapshots ++ [st.ctx]
        = (List.range (st.iteration + 1)).map (fun j => mkCtx prompt (histList inputs j)) := by
      rw [hsnap, hctx]
      simp [List.range_succ]
    cases hr : (inputs (st.iteration + 1)).response with
    | false =>
      rw [loopAux_step_abort inputs true fuel st hst hr]
      show st.snapshots ++ [st.ctx]
        = (List.range (st.snapshots ++ [st.ctx]).length).map _
      rw [hsn1]
      simp
    | true =>
      obtain ⟨st2, heq, ha, hi, hsn, hctx2, _⟩ :=
        loopAux_step_facts inputs true fuel st hst hr
      rw [heq]
      cases hA : decApproves (inputs (st.iteration + 1)).decision with
      | true =>
        have h2 : st2.approved = true := by rw [ha]; simp [roundApproves, hA]
        rw [loopAux_of_approved inputs true fuel st2 h2, hsn, hsn1]
        simp
      | false =>
        have h2 : st2.approved = false := by rw [ha]; simp [roundApproves, hA]
        refine ih st2 h2 ?_ ?_
        · rw [hsn, hi]; exact hsn1
        · rw [hctx2, hi, handle_if_true, handle_some_reject _ _ _ _ _ hA, hctx,
            histList_succ]
          rfl

/-- Counterexample to claim C2 as stated over every run: in a run without
a feedback handler rejected rounds append nothing, so round 2 starts with
a history of length 0, not `2 - 1 = 1`. -/
theorem history_not_incremented_without_handler :
    (generate_meme "p" inpRejAll false).snapshots.get? 1
      = some { initial_prompt := "p", iterations := [] } ∧
    ({ initial_prompt := "p", iterations := [] } : IterationContext).iterations.length = 0 ∧
    (0 : Nat) ≠ 2 - 1 := by
  refine ⟨rfl, rfl, by decide⟩

/-- Claim C2 amended (restricted to runs with a feedback handler): at the
start of round `j + 1` the history has exactly `j` records, consecutive
round-start histories differ by exactly one appended record, and an
approving decision leaves the context untouched. -/
theorem history_monotonic (prompt : String) (inputs : Nat → RoundInput) :
    (∀ (j : Nat) (c : IterationContext),
      (generate_meme prompt inputs true).snapshots.get? j = some c →
      c.iterations.length = j) ∧
    (∀ (j : Nat) (c c' : IterationContext),
      (generate_meme prompt inputs true).snapshots.get? j = some c →
      (generate_meme prompt inputs true).snapshots.get? (j + 1) = some c' →
      ∃ r : IterationRecord, c'.iterations = c.iterations ++ [r]) ∧
    (∀ (i : Nat) (ctx : IterationContext) (s : Option MemeSpec) (u : Option String)
      (d : DecisionMsg), decApproves d = true →
      handle_human_decision i ctx s u (some d) = (true, "", ctx)) := by
  have hshape := loopAux_snapshots prompt inputs MAX_ITERATIONS (initState prompt)
    rfl (by simp [initState]) rfl
  have hget : ∀ (j : Nat) (c : IterationContext),
      (generate_meme prompt inputs true).snapshots.get? j = some c →
      c = mkCtx prompt (histList inputs j) := by
    intro j c hj
    rw [show (generate_meme prompt inputs true).snapshots
        = (List.range ((generate_meme prompt inputs true).snapshots.length)).map
            (fun j => mkCtx prompt (histList inputs j)) from hshape] at hj
    rw [List.get?_map] at hj
    by_cases hjl : j < (generate_meme prompt inputs true).snapshots.length
    · rw [List.get?_range hjl] at hj
      simpa using hj.symm
    · rw [List.get?_eq_none.mpr (by simpa using Nat.le_of_not_lt hjl)] at hj
      simp at hj
  refine ⟨?_, ?_, ?_⟩
  · intro j c hj
    rw [hget j c hj]
    simp [mkCtx, histList]
  · intro j c c' hj hj'
    rw [hget j c hj, hget (j + 1) c' hj']
    exact ⟨recOf inputs (j + 1), by simp [mkCtx, histList_succ]⟩
  · intro i ctx s u d hd
    exact handle_some_approve i ctx s u d hd

/-- Witness for `history_monotonic`: with every round rejected, round 2
starts with exactly one history record. -/
theorem history_monotonic_witness :
    ((generate_meme "p" inpRejAll true).snapshots.get? 1).map
      (fun c => c.iterations.length) = some 1 := by
  have h := (history_monotonic "p" inpRejAll).1
  cases hj : (generate_meme "p" inpRejAll true).snapshots.get? 1 with
  | none => exact absurd hj (by decide)
  | some c => simp [h 1 c hj]

/-! ### C7: a round without an approval response aborts the run -/

theorem loopAux_abort_lemma (inputs : Nat → RoundInput) (hp : Bool) :
    ∀ (k fuel : Nat) (st : LoopState), st.approved = false →
      (∀ i, 1 ≤ i → i ≤ k → (inputs (st.iteration + i)).response = true ∧
        roundApproves hp (inputs (st.iteration + i)) = false) →
      (inputs (st.iteration + k + 1)).response = false →
      k + 1 ≤ fuel →
      (loopAux inputs hp fuel st).iteration = st.iteration + k + 1 ∧
      (loopAux inputs hp fuel st).aborted = true ∧
      (loopAux inputs hp fuel st).approved = false ∧
      (loopAux inputs hp fuel st).abortMessage
        = some "No approval request detected - something went wrong" ∧
      (loopAux inputs hp fuel st).snapshots.length = st.snapshots.length + k + 1 := by
  intro k
  induction k with
  | zero =>
    intro fuel st hst hrej habort hfuel
    obtain ⟨f, rfl⟩ : ∃ f, fuel = f + 1 := ⟨fuel - 1, by omega⟩
    rw [loopAux_step_abort inputs hp f st hst (by simpa using habort)]
    exact ⟨rfl, rfl, hst, rfl, by simp⟩
  | succ k ihk =>
    intro fuel st hst hrej habort hfuel
    obtain ⟨f, rfl⟩ : ∃ f, fuel = f + 1 := ⟨fuel - 1, by omega⟩
    have hr1 := hrej 1 (by omega) (by omega)
    obtain ⟨st2, heq, ha, hi, hsn, _, _⟩ :=
      loopAux_step_facts inputs hp f st hst hr1.1
    rw [heq]
    have h2 : st2.approved = false := by rw [ha, hr1.2]
    have hrej2 : ∀ i, 1 ≤ i → i ≤ k → (inputs (st2.iteration + i)).response = true ∧
        roundApproves hp (inputs (st2.iteration + i)) = false := by
      intro i hi1 hi2
      have harith : st2.iteration + i = st.iteration + (i + 1) := by rw [hi]; omega
      rw [harith]
      exact hrej (i + 1) (by omega) (by omega)
    have habort2 : (inputs (st2.iteration + k + 1)).response = false := by
      have harith : st2.iteration + k + 1 = st.iteration + (k + 1) + 1 := by rw [hi]; omega
      rw [harith]
      exact habort
    obtain ⟨j1, j2, j3, j4, j5⟩ := ihk f st2 h2 hrej2 habort2 (by omega)
    refine ⟨?_, j2, j3, j4, ?_⟩
    · rw [j1, hi]; omega
    · rw [j5, hsn]
      simp only [List.length_append, List.length_singleton]
      omega

/-- Claim C7: if every earlier round was rejected normally and round `r`
captures no pending approval response, the controller aborts the whole run
at round `r` — surfacing `No approval request detected - something went
wrong` — and starts no further round. -/
theorem fatal_abort_stops_run (prompt : String) (inputs : Nat → RoundInput) (hp : Bool)
    (r : Nat) (hr1 : 1 ≤ r) (hr2 : r ≤ MAX_ITERATIONS)
    (hbefore : ∀ i, 1 ≤ i → i < r → (inputs i).response = true ∧
      roundApproves hp (inputs i) = false)
    (hnoresp : (inputs r).response = false) :
    (generate_meme prompt inputs hp).iteration = r ∧
    (generate_meme prompt inputs hp).aborted = true ∧
    (generate_meme prompt inputs hp).approved = false ∧
    (generate_meme prompt inputs hp).abortMessage
      = some "No approval request detected - something went wrong" ∧
    (generate_meme prompt inputs hp).snapshots.length = r := by
  have h := loopAux_abort_lemma inputs hp (r - 1) MAX_ITERATIONS (initState prompt) rfl
    (by
      intro i hi1 hi2
      have harith : (initState prompt).iteration + i = i := by simp [initState]
      rw [harith]
      exact hbefore i hi1 (by omega))
    (by
      have harith : (initState prompt).iteration + (r - 1) + 1 = r := by
        simp [initState]; omega
      rw [harith]
      exact hnoresp)
    (by omega)
  obtain ⟨h1, h2, h3, h4, h5⟩ := h
  refine ⟨?_, h2, h3, h4, ?_⟩
  · rw [show (generate_meme prompt inputs hp).iteration
      = (loopAux inputs hp MAX_ITERATIONS (initState prompt)).iteration from rfl, h1]
    simp [initState]
    omega
  · rw [show (generate_meme prompt inputs hp).snapshots
      = (loopAux inputs hp MAX_ITERATIONS (initState prompt)).snapshots from rfl, h5]
    simp [initState]
    omega

/-- Witness for `fatal_abort_stops_run`: the first round already captures
no approval response, so the run aborts after exactly one round. -/
theorem fatal_abort_stops_run_witness :
    (generate_meme "p" inpNoResp true).iteration = 1 ∧
    (generate_meme "p" inpNoResp true).aborted = true ∧
    (generate_meme "p" inpNoResp true).abortMessage
      = some "No approval request detected - something went wrong" := by
  have h := fatal_abort_stops_run "p" inpNoResp true 1 (by decide) (by decide)
    (fun i hi1 hi2 => absurd hi2 (by omega)) rfl
  exact ⟨h.1, h.2.1, h.2.2.2.1⟩

/-! ### C5: the shape of the returned result -/

theorem loopAux_iter_ub (inputs : Nat → RoundInput) (hp : Bool) :
    ∀ (fuel : Nat) (st : LoopState),
      (loopAux inputs hp fuel st).iteration ≤ st.iteration + fuel := by
  intro fuel
  induction fuel with
  | zero => intro st; simp [loopAux]
  | succ fuel ih =>
    intro st
    cases hst : st.approved with
    | true => rw [loopAux_of_approved inputs hp _ st hst]; omega
    | false =>
      cases hr : (inputs (st.iteration + 1)).response with
      | true =>
        obtain ⟨st2, heq, _, hi, _, _, _⟩ := loopAux_step_facts inputs hp fuel st hst hr
        rw [heq]
        have := ih st2
        rw [hi] at this
        omega
      | false =>
        rw [loopAux_step_abort inputs hp fuel st hst hr]
        show st.iteration + 1 ≤ st.iteration + (fuel + 1)
        omega

theorem loopAux_iter_lb (inputs : Nat → RoundInput) (hp : Bool) :
    ∀ (fuel : Nat) (st : LoopState),
      st.iteration ≤ (loopAux inputs hp fuel st).iteration := by
  intro fuel
  induction fuel with
  | zero => intro st; simp [loopAux]
  | succ fuel ih =>
    intro st
    cases hst : st.approved with
    | true => rw [loopAux_of_approved inputs hp _ st hst]
    | false =>
      cases hr : (inputs (st.iteration + 1)).response with
      | true =>
        obtain ⟨st2, heq, _, hi, _, _, _⟩ := loopAux_step_facts inputs hp fuel st hst hr
        rw [heq]
        have := ih st2
        rw [hi] at this
        omega
      | false =>
        rw [loopAux_step_abort inputs hp fuel st hst hr]
        show st.iteration ≤ st.iteration + 1
        omega

theorem loopAux_first_round (inputs : Nat → RoundInput) (hp : Bool) (fuel : Nat)
    (st : LoopState) (hst : st.approved = false) :
    st.iteration + 1 ≤ (loopAux inputs hp (fuel + 1) st).iteration := by
  cases hr : (inputs (st.iteration + 1)).response with
  | true =>
    obtain ⟨st2, heq, _, hi, _, _, _⟩ := loopAux_step_facts inputs hp fuel st hst hr
    rw [heq]
    have := loopAux_iter_lb inputs hp fuel st2
    rw [hi] at this
    omega
  | false =>
    rw [loopAux_step_abort inputs hp fuel st hst hr]

theorem loopAux_abort_not_approved (inputs : Nat → RoundInput) (hp : Bool) :
    ∀ (fuel : Nat) (st : LoopState), st.approved = false → st.aborted = false →
      (loopAux inputs hp fuel st).aborted = true →
      (loopAux inputs hp fuel st).approved = false := by
  intro fuel
  induction fuel with
  | zero =>
    intro st hst hab habt
    rw [show loopAux inputs hp 0 st = st from rfl] at habt
    rw [hab] at habt
    exact absurd habt (by simp)
  | succ fuel ih =>
    intro st hst hab habt
    cases hr : (inputs (st.iteration + 1)).response with
    | true =>
      obtain ⟨st2, heq, ha, _, _, _, hab2⟩ := loopAux_step_facts inputs hp fuel st hst hr
      rw [heq] at habt ⊢
      cases h2 : st2.approved with
      | true =>
        rw [loopAux_of_approved inputs hp fuel st2 h2] at habt
        rw [hab2, hab] at habt
        exact absurd habt (by simp)
      | false => exact ih st2 h2 (by rw [hab2, hab]) habt
    | false =>
      rw [loopAux_step_abort inputs hp fuel st hst hr]
      exact hst

/-- Counterexample to claim C5: the fatal-abort outcome is not a distinct
result.  A run whose fifth round captures no approval response returns a
dict identical to that of a run rejected in all five rounds, even though
one aborted and the other exhausted its iterations. -/
theorem abort_equals_exhaustion :
    runResultOf (generate_meme "p" inpRejAll true)
      = runResultOf (generate_meme "p" inpAbortAt5 true) ∧
    (generate_meme "p" inpAbortAt5 true).aborted = true ∧
    (generate_meme "p" inpRejAll true).aborted = false ∧
    (generate_meme "p" inpRejAll true).approved = false ∧
    (generate_meme "p" inpAbortAt5 true).approved = false := by
  exact ⟨rfl, rfl, rfl, rfl, rfl⟩

/-- Claim C5 amended: the caller of `generate_meme` always receives a
well-formed result dict with `1 ≤ iterations ≤ MAX_ITERATIONS`; an
approved run is a distinct outcome (aborted runs never report
`approved = true`), but fatal-abort is not distinguished from
rejection-after-exhaustion in the returned dict. -/
theorem run_result_shape (prompt : String) (inputs : Nat → RoundInput) (hp : Bool) :
    1 ≤ (runResultOf (generate_meme prompt inputs hp)).iterations ∧
    (runResultOf (generate_meme prompt inputs hp)).iterations ≤ MAX_ITERATIONS ∧
    ((generate_meme prompt inputs hp).aborted = true →
      (runResultOf (generate_meme prompt inputs hp)).approved = false) := by
  refine ⟨?_, ?_, ?_⟩
  · have h := loopAux_first_round inputs hp (MAX_ITERATIONS - 1) (initState prompt) rfl
    simpa [generate_meme, initState, runResultOf] using h
  · have h := loopAux_iter_ub inputs hp MAX_ITERATIONS (initState prompt)
    simpa [generate_meme, initState, runResultOf] using h
  · intro habt
    exact loopAux_abort_not_approved inputs hp MAX_ITERATIONS (initState prompt)
      rfl rfl habt

/-- Witness for `run_result_shape`: an aborting run still returns a
well-formed, unapproved result. -/
theorem run_result_shape_witness :
    1 ≤ (runResultOf (generate_meme "p" inpNoResp false)).iterations ∧
    (runResultOf (generate_meme "p" inpNoResp false)).approved = false := by
  have h := run_result_shape "p" inpNoResp false
  exact ⟨h.1, h.2.2 rfl⟩

/-! ### C6: the approval comparison is a string comparison -/

/-- Counterexample to claim C6: a decision whose `approved` field is the
boolean `True` is treated as a rejection — the round does not terminate
approved and the run does not return `approved: true`. -/
theorem boolean_true_treated_as_rejection :
    boolD.approved = some (JVal.bool true) ∧
    (handle_human_decision 1 { initial_prompt := "p", iterations := [] }
      none none (some boolD)).1 = false ∧
    (generate_meme "p" inpBoolTrue true).approved = false ∧
    (generate_meme "p" inpBoolTrue true).iteration = MAX_ITERATIONS := by
  exact ⟨rfl, rfl, rfl, rfl⟩

/-- Claim C6 amended: `_handle_human_decision` compares the decision's
`approved` field with the string `"true"` (defaulting to the string
`"false"` when absent); the round terminates approved exactly when the
field equals the string `"true"`, and a boolean value — `True` included —
is always treated as a rejection. -/
theorem approval_is_string_comparison (i : Nat) (ctx : IterationContext)
    (s : Option MemeSpec) (u : Option String) (d : DecisionMsg) :
    ((handle_human_decision i ctx s u (some d)).1 = true
      ↔ d.approved.getD (JVal.str "false") = JVal.str "true") ∧
    (∀ (b : Bool) (f c : Option String),
      (handle_human_decision i ctx s u
        (some { approved := some (JVal.bool b), feedback := f, command_id := c })).1
        = false) := by
  constructor
  · by_cases hc : d.approved.getD (JVal.str "false") = JVal.str "true"
    · simp [handle_human_decision, hc]
    · simp [handle_human_decision, hc]
  · intro b f c
    simp [handle_human_decision]

/-- Witness for `approval_is_string_comparison`: the string `"true"`
approves, the boolean `True` does not. -/
theorem approval_is_string_comparison_witness :
    (handle_human_decision 1 { initial_prompt := "p", iterations := [] }
      none none (some appD)).1 = true ∧
    (handle_human_decision 1 { initial_prompt := "p", iterations := [] }
      none none (some boolD)).1 = false := by
  have h := approval_is_string_comparison 1
    { initial_prompt := "p", iterations := [] } none none appD
  exact ⟨h.1.mpr rfl, h.2 true (some "") none⟩

end MemeRefiner
